import Mathlib

/-!
Shallow embedding of CircuitBreakerLib (src/CircuitBreakerLib/circuit_breaker.py):
the per-key circuit state machine, sliding failure window, half-open probe
limiter, execution guard, config lookup, and the service-level port gate.
Clock readings are modelled as integer seconds and are passed in explicitly
wherever the source reads the system clock.  The truthiness tests of the
source (None and 0 are both falsy) are modelled explicitly.
-/

namespace CircuitBreakerLib

/-- States of a circuit, from class State, circuit_breaker.py lines 13-16.
The source value OPEN is spelled opened because open is a Lean keyword. -/
inductive State where
  | closed
  | opened
  | halfOpen
  deriving DecidableEq

/-- Errors that can surface from a wrapped call: CircuitOpenError
(circuit_breaker.py line 18), ResponseTimeoutError (line 21), and a generic
exception raised by the wrapped function itself. -/
inductive CBError where
  | circuitOpen
  | responseTimeout
  | appFailure
  deriving DecidableEq

/-- One per-key circuit record, as initialised by CircuitBreaker._get_state
(circuit_breaker.py lines 72-80): a state, the deque of failure instants
(oldest first), the in-flight half-open probe counter, and the instant the
circuit last entered OPEN (None when never opened). -/
structure Circuit where
  state : State
  fail_times : List Int
  half_open_inflight : Nat
  opened_at : Option Int
  deriving DecidableEq

/-- The fresh record created on first reference to a key
(circuit_breaker.py lines 73-79). -/
def emptyCircuit : Circuit :=
  { state := State.closed
    fail_times := []
    half_open_inflight := 0
    opened_at := none }

/-- The tunables dict returned by CircuitBreaker._load_config
(circuit_breaker.py lines 54-63). -/
structure Config where
  failure_threshold : Nat
  recovery_timeout : Int
  half_open_max_calls : Nat
  window_seconds : Int
  response_timeout : Option Int
  service_port : Option Nat
  local_host : String
  docker_host : String
  deriving DecidableEq

/-- Truthiness of an optional timestamp or duration in the source: None is
falsy, and so is the number 0 (Python bool of a float/int). -/
def truthyTime : Option Int → Bool
  | none => false
  | some t => if t = 0 then false else true

/-- Embeds CircuitBreaker._set_state (circuit_breaker.py lines 82-93).
When the state actually changes: entering OPEN stamps opened_at with the
ts of the context; the transition HALF_OPEN to CLOSED zeroes the inflight
counter and clears the failure history.  The on_state_change observer
callback of the source has no effect on the record and is elided. -/
def set_state (c : Circuit) (new_state : State) (ts : Int) : Circuit :=
  if c.state = new_state then c
  else
    let c1 : Circuit := { c with state := new_state }
    let c2 : Circuit :=
      if new_state = State.opened then { c1 with opened_at := some ts } else c1
    if c.state = State.halfOpen ∧ new_state = State.closed then
      { c2 with half_open_inflight := 0, fail_times := [] }
    else c2

/-- The while loop of CircuitBreaker._prune_failures (circuit_breaker.py
lines 99-100): pop entries from the front while strictly older than
now minus window_seconds. -/
def pruneList (now w : Int) : List Int → List Int
  | [] => []
  | t :: ts => if t < now - w then pruneList now w ts else t :: ts

/-- Embeds CircuitBreaker._prune_failures (circuit_breaker.py lines 96-100),
with the clock reading now passed in. -/
def prune_failures (c : Circuit) (now : Int) (cfg : Config) : Circuit :=
  { c with fail_times := pruneList now cfg.window_seconds c.fail_times }

/-- The HALF_OPEN probe-budget test of CircuitBreaker._check_state
(circuit_breaker.py lines 164-166): raise CircuitOpenError when the state
is HALF_OPEN and the inflight counter has reached half_open_max_calls. -/
def halfOpenBudget (c : Circuit) (cfg : Config) : Option CBError :=
  if c.state = State.halfOpen ∧ cfg.half_open_max_calls ≤ c.half_open_inflight
  then some CBError.circuitOpen else none

/-- Embeds CircuitBreaker._check_state (circuit_breaker.py lines 153-166).
Returns the possibly updated record together with the raised error, if any:
an OPEN circuit with a truthy opened_at either transitions to HALF_OPEN
(zeroing the inflight counter) once recovery_timeout has elapsed, falling
through to the probe-budget test, or raises CircuitOpenError; any other
record goes straight to the probe-budget test.  A raise in the source
leaves the mutations made so far in place, hence the record is returned
alongside the error. -/
def check_state (c : Circuit) (now : Int) (cfg : Config) :
    Circuit × Option CBError :=
  if c.state = State.opened ∧ truthyTime c.opened_at = true then
    if cfg.recovery_timeout ≤ now - c.opened_at.getD 0 then
      let c1 := set_state c State.halfOpen now
      let c2 : Circuit := { c1 with half_open_inflight := 0 }
      (c2, halfOpenBudget c2 cfg)
    else (c, some CBError.circuitOpen)
  else (c, halfOpenBudget c cfg)

/-- Embeds CircuitBreaker._record_failure (circuit_breaker.py lines
169-176): append the clock reading, prune, then open the circuit when the
state is HALF_OPEN or the pruned count has reached failure_threshold. -/
def record_failure (c : Circuit) (now : Int) (cfg : Config) : Circuit :=
  let c1 : Circuit := { c with fail_times := c.fail_times ++ [now] }
  let c2 := prune_failures c1 now cfg
  if c2.state = State.halfOpen ∨ cfg.failure_threshold ≤ c2.fail_times.length
  then set_state c2 State.opened now
  else c2

/-- Embeds CircuitBreaker._record_success (circuit_breaker.py lines
179-182): an OPEN or HALF_OPEN circuit is closed.  The cfg argument of the
source is unused there and is dropped here. -/
def record_success (c : Circuit) (now : Int) : Circuit :=
  if c.state = State.opened ∨ c.state = State.halfOpen
  then set_state c State.closed now
  else c

/-- Folding _record_failure over a list of failure instants, as repeated
failing calls would record them in order. -/
def recordFailures (c : Circuit) (cfg : Config) (ts : List Int) : Circuit :=
  ts.foldl (fun a t => record_failure a t cfg) c

/-- Result of one wrapped call: a returned value (from the function or the
fallback) or a propagated error. -/
inductive CallResult where
  | value (v : Int)
  | error (e : CBError)
  deriving DecidableEq

/-- The admission section of the wrapper (circuit_breaker.py lines 192-199),
after the service gate: run _check_state, and when it passes and the state
is HALF_OPEN, increment the inflight probe counter. -/
def admission (c : Circuit) (now : Int) (cfg : Config) :
    Circuit × Option CBError :=
  match check_state c now cfg with
  | (c1, some e) => (c1, some e)
  | (c1, none) =>
      if c1.state = State.halfOpen then
        ({ c1 with half_open_inflight := c1.half_open_inflight + 1 }, none)
      else (c1, none)

/-- The finally block of the wrapper (circuit_breaker.py lines 235-239):
decrement the inflight counter, but only when the state is still HALF_OPEN
and the counter is positive. -/
def finallyDec (c : Circuit) : Circuit :=
  if c.state = State.halfOpen ∧ 0 < c.half_open_inflight then
    { c with half_open_inflight := c.half_open_inflight - 1 }
  else c

/-- The try/except/finally body of the wrapper (circuit_breaker.py lines
201-239), entered after admission.  The behaviour of the wrapped function
is an oracle input: funcResult is what it does when run, and timesOut says
whether the guard deadline elapses first (relevant only when
response_timeout is truthy, mirroring the if of line 203).  On a guard
timeout a failure is recorded and ResponseTimeoutError is handled: the
fallback result is returned when supplied, else the error propagates.  On
an application exception a failure is recorded with the same fallback
handling; on success a success is recorded and the value returned.  The
finally decrement runs on every path that entered the body. -/
def runBody (c : Circuit) (cfg : Config) (tDone : Int)
    (funcResult : Except Unit Int) (timesOut : Bool) (fallback : Option Int) :
    CallResult × Circuit :=
  if truthyTime cfg.response_timeout = true ∧ timesOut = true then
    let c1 := record_failure c tDone cfg
    match fallback with
    | some v => (CallResult.value v, finallyDec c1)
    | none => (CallResult.error CBError.responseTimeout, finallyDec c1)
  else
    match funcResult with
    | Except.ok v => (CallResult.value v, finallyDec (record_success c tDone))
    | Except.error _ =>
        let c1 := record_failure c tDone cfg
        match fallback with
        | some v => (CallResult.value v, finallyDec c1)
        | none => (CallResult.error CBError.appFailure, finallyDec c1)

/-- Embeds CircuitBreaker.__call__.wrapper (circuit_breaker.py lines
185-240) for one key, in the case the service gate passes trivially
(cfg.service_port unset, _check_service_port line 108 returns True without
touching state).  tAdm is the clock at admission, tDone the clock when the
outcome is recorded.  The admission section sits before the try of the
source, so an error it raises propagates directly: the fallback is never
consulted there and the body (and its finally) never runs.  The third
component reports whether the wrapped function was invoked. -/
def wrapper (c : Circuit) (cfg : Config) (tAdm tDone : Int)
    (funcResult : Except Unit Int) (timesOut : Bool) (fallback : Option Int) :
    CallResult × Circuit × Bool :=
  match admission c tAdm cfg with
  | (c1, some e) => (CallResult.error e, c1, false)
  | (c1, none) =>
      let r := runBody c1 cfg tDone funcResult timesOut fallback
      (r.1, r.2, true)

/-- The raw per-service section of the YAML config, every field optional,
as read by the cb_config.get calls of _load_config (circuit_breaker.py
lines 52-63). -/
structure RawConfig where
  failure_threshold : Option Nat
  recovery_timeout : Option Int
  half_open_max_calls : Option Nat
  window_seconds : Option Int
  response_timeout : Option Int
  service_port : Option Nat
  local_host : Option String
  docker_host : Option String
  deriving DecidableEq

/-- A config section with every field absent, as when the project or the
service has no entry in the loaded file. -/
def emptyRawConfig : RawConfig :=
  { failure_threshold := none
    recovery_timeout := none
    half_open_max_calls := none
    window_seconds := none
    response_timeout := none
    service_port := none
    local_host := none
    docker_host := none }

/-- The defaulting of _load_config (circuit_breaker.py lines 54-63): each
absent field is replaced by its stated default. -/
def cfgFromRaw (raw : RawConfig) : Config :=
  { failure_threshold := raw.failure_threshold.getD 5
    recovery_timeout := raw.recovery_timeout.getD 30
    half_open_max_calls := raw.half_open_max_calls.getD 1
    window_seconds := raw.window_seconds.getD 60
    response_timeout := raw.response_timeout
    service_port := raw.service_port
    local_host := raw.local_host.getD "localhost"
    docker_host := raw.docker_host.getD "host.docker.internal" }

/-- Outcome of reading the config file from disk, the input of one run of
_load_config on a breaker whose cached mtime differs (the fresh-read path
of circuit_breaker.py lines 42-50): the file may be missing
(FileNotFoundError, caught at line 49, cache reset to empty), its contents
may be malformed (yaml.safe_load raises, nothing catches it), or it parses
to a project-to-service-to-section mapping. -/
inductive ConfigFile where
  | missing
  | malformed
  | parsed (lookup : String → String → Option RawConfig)

/-- The uncaught exception escaping _load_config when the file contents do
not parse (yaml.safe_load at circuit_breaker.py line 46 raises an error
that the except clause of line 49, which names only FileNotFoundError,
does not catch). -/
inductive ConfigError where
  | yamlError
  deriving DecidableEq

/-- Embeds CircuitBreaker._load_config (circuit_breaker.py lines 41-63) on
the fresh-read path: a missing file degrades to the empty cache and whole
defaults, malformed contents raise, and parsed contents are looked up by
project and service with per-field defaulting. -/
def load_config (file : ConfigFile) (project service : String) :
    Except ConfigError Config :=
  match file with
  | ConfigFile.missing => Except.ok (cfgFromRaw emptyRawConfig)
  | ConfigFile.malformed => Except.error ConfigError.yamlError
  | ConfigFile.parsed lookup =>
      Except.ok (cfgFromRaw ((lookup project service).getD emptyRawConfig))

/-- Embeds CircuitBreaker._circuit_key (circuit_breaker.py lines 66-67). -/
def circuit_key (project service api : String) : String :=
  project ++ ":" ++ service ++ ":" ++ api

/-- Embeds CircuitBreaker._service_prefix (circuit_breaker.py lines 69-70). -/
def servicePrefixOf (project service : String) : String :=
  project ++ ":" ++ service ++ ":"

/-- Models str.startswith of the source, used at circuit_breaker.py lines
135 and 142 to find the circuits of a service. -/
def strStartsWith (pre s : String) : Bool :=
  List.isPrefixOf pre.data s.data

/-- Dict lookup in the per-service last-down table self._last_down. -/
def lookupTs : List (String × Int) → String → Option Int
  | [], _ => none
  | (k, v) :: rest, key => if k = key then some v else lookupTs rest key

/-- Dict assignment in self._last_down (circuit_breaker.py line 148). -/
def setTs : List (String × Int) → String → Int → List (String × Int)
  | [], key, v => [(key, v)]
  | (k, w) :: rest, key, v =>
      if k = key then (k, v) :: rest else (k, w) :: setTs rest key v

/-- Dict pop in self._last_down (circuit_breaker.py line 130). -/
def removeTs : List (String × Int) → String → List (String × Int)
  | [], _ => []
  | (k, w) :: rest, key =>
      if k = key then rest else (k, w) :: removeTs rest key

/-- The process-wide mutable state of a CircuitBreaker instance that the
service gate touches: the circuits dict (insertion ordered, keys unique)
and the per-service-prefix last-down table. -/
structure Breaker where
  circuits : List (String × Circuit)
  last_down : List (String × Int)
  deriving DecidableEq

/-- The except branch of _check_service_port (circuit_breaker.py lines
132-148), run when the connection probe fails: every circuit whose key
starts with the service prefix is set OPEN in place (the loop of lines
134-139 mutates values, leaving keys and order intact); when no key of
the service exists, a dummy circuit keyed prefix plus _dummy_api is
created and opened (lines 141-145, dict insertion appends); finally the
last-down mark is stamped (line 148).  The any test of line 142 runs after
the loop, which changes no keys, so it is taken over the mapped list. -/
def markServiceDown (b : Breaker) (sp : String) (now : Int) : Breaker :=
  let openedCircuits := b.circuits.map (fun kc =>
    if strStartsWith sp kc.1 then (kc.1, set_state kc.2 State.opened now)
    else kc)
  let withDummy :=
    if openedCircuits.any (fun kc => strStartsWith sp kc.1) then
      openedCircuits
    else
      openedCircuits ++
        [(sp ++ "_dummy_api", set_state emptyCircuit State.opened now)]
  { circuits := withDummy, last_down := setTs b.last_down sp now }

/-- Embeds CircuitBreaker._check_service_port (circuit_breaker.py lines
106-149).  The clock reading now and the outcome portUp of the bounded
connection probe are inputs; the third component of the result records
whether a connection probe was attempted at all.  An unset or zero port
passes trivially (line 108, Python truthiness).  A last-down mark younger
than recovery_timeout rejects without probing (lines 120-124).  A
successful probe clears the mark (lines 128-131).  A failed probe opens
every circuit whose key starts with the service prefix, synthesises an
opened dummy circuit when none exists, stamps the last-down mark, and
rejects (lines 132-149).  The on_state_change callback is elided as in
set_state. -/
def check_service_port (b : Breaker) (project service : String)
    (cfg : Config) (now : Int) (portUp : Bool) :
    Breaker × Option CBError × Bool :=
  match cfg.service_port with
  | none => (b, none, false)
  | some port =>
      if port = 0 then (b, none, false)
      else
        let sp := servicePrefixOf project service
        let ld := lookupTs b.last_down sp
        if truthyTime ld = true ∧ now - ld.getD 0 < cfg.recovery_timeout then
          (b, some CBError.circuitOpen, false)
        else if portUp then
          ({ b with last_down := removeTs b.last_down sp }, none, true)
        else (markServiceDown b sp now, some CBError.circuitOpen, true)

/-- The whole-defaults tunables record, as produced for a missing file or
an absent config section. -/
def defaultCfg : Config := cfgFromRaw emptyRawConfig

/-- The concrete tunables of testable property 6 of the spec: threshold 3,
window 10 seconds, other fields at their defaults. -/
def cfg3 : Config :=
  { failure_threshold := 3
    recovery_timeout := 30
    half_open_max_calls := 1
    window_seconds := 10
    response_timeout := none
    service_port := none
    local_host := "localhost"
    docker_host := "host.docker.internal" }

/-- Transitioning to OPEN never touches the failure window or the inflight
counter, and always leaves the state OPEN. -/
theorem set_state_opened_fields (c : Circuit) (t : Int) :
    (set_state c State.opened t).state = State.opened ∧
    (set_state c State.opened t).fail_times = c.fail_times ∧
    (set_state c State.opened t).half_open_inflight = c.half_open_inflight := by
  unfold set_state
  split_ifs with h1 h2 <;> simp_all

/-- Entering OPEN from another state stamps opened_at. -/
theorem set_state_opened_at (c : Circuit) (t : Int) (h : c.state ≠ State.opened) :
    (set_state c State.opened t).opened_at = some t := by
  unfold set_state
  split_ifs with h1 h2 <;> simp_all

/-- A CLOSED circuit entering OPEN: only state and opened_at change. -/
theorem set_state_closed_to_opened (c : Circuit) (t : Int)
    (h : c.state = State.closed) :
    set_state c State.opened t
      = { c with state := State.opened, opened_at := some t } := by
  simp [set_state, h]

/-- An OPEN circuit being closed: only the state changes (the clear of the
window and the inflight reset happen only on the HALF_OPEN to CLOSED
transition). -/
theorem set_state_opened_to_closed (c : Circuit) (t : Int)
    (h : c.state = State.opened) :
    set_state c State.closed t = { c with state := State.closed } := by
  simp [set_state, h]

/-- A HALF_OPEN circuit being closed: the window is cleared and the
inflight counter reset. -/
theorem set_state_halfOpen_to_closed (c : Circuit) (t : Int)
    (h : c.state = State.halfOpen) :
    set_state c State.closed t
      = { c with
          state := State.closed
          half_open_inflight := 0
          fail_times := [] } := by
  simp [set_state, h]

/-- A non-HALF_OPEN circuit entering HALF_OPEN: only the state changes. -/
theorem set_state_to_halfOpen (c : Circuit) (t : Int)
    (h : c.state ≠ State.halfOpen) :
    set_state c State.halfOpen t = { c with state := State.halfOpen } := by
  unfold set_state
  split_ifs with h1 h2 <;> simp_all

/-- The failure window after _record_failure is exactly the pruned
appended list, on every branch. -/
theorem record_failure_fail_times (c : Circuit) (now : Int) (cfg : Config) :
    (record_failure c now cfg).fail_times
      = pruneList now cfg.window_seconds (c.fail_times ++ [now]) := by
  simp only [record_failure, prune_failures]
  split_ifs with h
  · exact (set_state_opened_fields _ _).2.1
  · rfl

/-- Recording a failure while HALF_OPEN opens the circuit at once, stamps
opened_at with the failure instant, and leaves the inflight counter as it
was. -/
theorem record_failure_halfOpen (c : Circuit) (now : Int) (cfg : Config)
    (h : c.state = State.halfOpen) :
    (record_failure c now cfg).state = State.opened ∧
    (record_failure c now cfg).half_open_inflight = c.half_open_inflight ∧
    (record_failure c now cfg).opened_at = some now := by
  unfold record_failure prune_failures
  rw [if_pos (Or.inl (by simpa using h))]
  refine ⟨(set_state_opened_fields _ _).1, (set_state_opened_fields _ _).2.2, ?_⟩
  exact set_state_opened_at _ _ (by simp [h])

/-- Recording a success while HALF_OPEN closes the circuit, clears the
window and zeroes the inflight counter. -/
theorem record_success_halfOpen (c : Circuit) (now : Int)
    (h : c.state = State.halfOpen) :
    record_success c now
      = { c with
          state := State.closed
          half_open_inflight := 0
          fail_times := [] } := by
  unfold record_success
  rw [if_pos (Or.inr h), set_state_halfOpen_to_closed c now h]

/-- Admission of a HALF_OPEN circuit with spare probe budget: passes and
increments the inflight counter. -/
theorem admission_halfOpen_admits (c : Circuit) (now : Int) (cfg : Config)
    (h1 : c.state = State.halfOpen)
    (h2 : c.half_open_inflight < cfg.half_open_max_calls) :
    admission c now cfg
      = ({ c with half_open_inflight := c.half_open_inflight + 1 }, none) := by
  have hx : ¬(c.state = State.opened ∧ truthyTime c.opened_at = true) := by
    rw [h1]; simp
  simp [admission, check_state, halfOpenBudget, hx, h1, Nat.not_le.mpr h2]

/-- A call on an OPEN circuit whose recovery timeout has not elapsed is
rejected with CircuitOpenError, the record untouched, the wrapped function
not invoked, the fallback never consulted. -/
theorem wrapper_rejects_open (c : Circuit) (cfg : Config) (t ts : Int)
    (h1 : c.state = State.opened) (h2 : c.opened_at = some ts) (h3 : ts ≠ 0)
    (hlt : t - ts < cfg.recovery_timeout) (tDone : Int)
    (fr : Except Unit Int) (tOut : Bool) (fb : Option Int) :
    wrapper c cfg t tDone fr tOut fb
      = (CallResult.error CBError.circuitOpen, c, false) := by
  have htr : truthyTime (some ts) = true := by simp [truthyTime, h3]
  have hcs : check_state c t cfg = (c, some CBError.circuitOpen) := by
    simp [check_state, h1, h2, htr, not_le.mpr hlt]
  simp [wrapper, admission, hcs]

/-- C10: a success recorded while the circuit is OPEN closes it directly,
at any instant (no recovery wait, no HALF_OPEN detour), and this OPEN to
CLOSED path leaves the accumulated failure timestamps and the inflight
counter untouched. -/
theorem C10_success_while_open (c : Circuit) (now : Int)
    (h : c.state = State.opened) :
    (record_success c now).state = State.closed ∧
    (record_success c now).fail_times = c.fail_times ∧
    (record_success c now).half_open_inflight = c.half_open_inflight := by
  unfold record_success
  rw [if_pos (Or.inl h), set_state_opened_to_closed c now h]
  exact ⟨rfl, rfl, rfl⟩

/-- C10 witness: a concrete OPEN circuit with two window entries and a
nonzero inflight counter is closed by a success with both preserved. -/
theorem C10_witness :
    (record_success ⟨State.opened, [3, 4], 2, some 4⟩ 9).state = State.closed ∧
    (record_success ⟨State.opened, [3, 4], 2, some 4⟩ 9).fail_times = [3, 4] ∧
    (record_success ⟨State.opened, [3, 4], 2, some 4⟩ 9).half_open_inflight = 2 :=
  C10_success_while_open ⟨State.opened, [3, 4], 2, some 4⟩ 9 rfl

/-- C5 counterexample: a malformed config file does not degrade to the
default tunables record; the parse error escapes the lookup (only
FileNotFoundError is caught in _load_config). -/
theorem C5_cex :
    load_config ConfigFile.malformed "p" "s"
      = Except.error ConfigError.yamlError := rfl

/-- C5 amended: a missing config file, or an absent project or service
section, degrades to the complete default tunables record with
failure_threshold 5, recovery_timeout 30, window_seconds 60,
half_open_max_calls 1 and response_timeout absent; malformed file contents
however raise a parse error that propagates out of the lookup into the
call path. -/
theorem C5_amended_defaults :
    (∀ p s, load_config ConfigFile.missing p s = Except.ok defaultCfg) ∧
    defaultCfg.failure_threshold = 5 ∧
    defaultCfg.recovery_timeout = 30 ∧
    defaultCfg.window_seconds = 60 ∧
    defaultCfg.half_open_max_calls = 1 ∧
    defaultCfg.response_timeout = none ∧
    (∀ p s lu, lu p s = none →
       load_config (ConfigFile.parsed lu) p s = Except.ok defaultCfg) ∧
    (∀ p s, load_config ConfigFile.malformed p s
       = Except.error ConfigError.yamlError) := by
  refine ⟨fun p s => rfl, rfl, rfl, rfl, rfl, rfl,
    fun p s lu h => ?_, fun p s => rfl⟩
  simp [load_config, h, defaultCfg]

/-- C5 amended witness: the defaulting arms at concrete inputs. -/
theorem C5_amended_witness :
    load_config (ConfigFile.parsed fun _ _ => none) "p" "s"
      = Except.ok defaultCfg :=
  C5_amended_defaults.2.2.2.2.2.2.1 "p" "s" (fun _ _ => none) rfl

/-- C1 counterexample: an OPEN circuit inside its recovery window, with a
fallback supplied, still raises CircuitOpenError from the wrapped call:
the admission section sits before the try block of the wrapper, so its
rejection bypasses the fallback instead of returning its result. -/
theorem C1_cex :
    (wrapper ⟨State.opened, [], 0, some 5⟩ defaultCfg 6 6 (Except.ok 1) false
        (some 42)).1
      = CallResult.error CBError.circuitOpen := by decide

/-- C1 amended: guard timeouts and application failures are checked
against the optional fallback, whose result is returned when supplied,
the error propagating unchanged otherwise; an admission-time
CircuitOpenError however always propagates to the caller unchanged,
whether or not a fallback was supplied, and the wrapped function is not
invoked. -/
theorem C1_amended_fallback_policy :
    (∀ c cfg tAdm tDone fr tOut fb e,
       (admission c tAdm cfg).2 = some e →
       wrapper c cfg tAdm tDone fr tOut fb
         = (CallResult.error e, (admission c tAdm cfg).1, false)) ∧
    (∀ c cfg tAdm tDone fr v,
       (admission c tAdm cfg).2 = none →
       truthyTime cfg.response_timeout = true →
       (wrapper c cfg tAdm tDone fr true (some v)).1 = CallResult.value v) ∧
    (∀ c cfg tAdm tDone fr,
       (admission c tAdm cfg).2 = none →
       truthyTime cfg.response_timeout = true →
       (wrapper c cfg tAdm tDone fr true none).1
         = CallResult.error CBError.responseTimeout) ∧
    (∀ c cfg tAdm tDone u tOut v,
       (admission c tAdm cfg).2 = none →
       ¬(truthyTime cfg.response_timeout = true ∧ tOut = true) →
       (wrapper c cfg tAdm tDone (Except.error u) tOut (some v)).1
         = CallResult.value v) ∧
    (∀ c cfg tAdm tDone u tOut,
       (admission c tAdm cfg).2 = none →
       ¬(truthyTime cfg.response_timeout = true ∧ tOut = true) →
       (wrapper c cfg tAdm tDone (Except.error u) tOut none).1
         = CallResult.error CBError.appFailure) := by
  refine ⟨?_, ?_, ?_, ?_, ?_⟩
  · intro c cfg tAdm tDone fr tOut fb e h
    rcases hA : admission c tAdm cfg with ⟨c1, err⟩
    rw [hA] at h
    simp only at h
    subst h
    simp [wrapper, hA]
  · intro c cfg tAdm tDone fr v h htr
    rcases hA : admission c tAdm cfg with ⟨c1, err⟩
    rw [hA] at h
    simp only at h
    subst h
    simp [wrapper, hA, runBody, htr]
  · intro c cfg tAdm tDone fr h htr
    rcases hA : admission c tAdm cfg with ⟨c1, err⟩
    rw [hA] at h
    simp only at h
    subst h
    simp [wrapper, hA, runBody, htr]
  · intro c cfg tAdm tDone u tOut v h hng
    rcases hA : admission c tAdm cfg with ⟨c1, err⟩
    rw [hA] at h
    simp only at h
    subst h
    simp [wrapper, hA, runBody, hng]
  · intro c cfg tAdm tDone u tOut h hng
    rcases hA : admission c tAdm cfg with ⟨c1, err⟩
    rw [hA] at h
    simp only at h
    subst h
    simp [wrapper, hA, runBody, hng]

/-- C1 amended witness: a HALF_OPEN probe whose function raises returns
the fallback result 7, and an OPEN-circuit rejection with the same
fallback still propagates CircuitOpenError. -/
theorem C1_amended_witness :
    (wrapper ⟨State.halfOpen, [], 0, some 1⟩ defaultCfg 2 2 (Except.error ())
        false (some 7)).1 = CallResult.value 7 ∧
    (wrapper ⟨State.opened, [], 0, some 5⟩ defaultCfg 6 6 (Except.error ())
        false (some 7)).1 = CallResult.error CBError.circuitOpen := by
  constructor
  · exact C1_amended_fallback_policy.2.2.2.1 ⟨State.halfOpen, [], 0, some 1⟩
      defaultCfg 2 2 () false 7 (by decide) (by decide)
  · have h := C1_amended_fallback_policy.1 ⟨State.opened, [], 0, some 5⟩
      defaultCfg 6 6 (Except.error ()) false (some 7) CBError.circuitOpen
      (by decide)
    rw [h]

/-- C2 counterexample: a HALF_OPEN probe that fails flips the circuit to
OPEN before the finally block runs; the decrement there is guarded by the
state still being HALF_OPEN, so after the call completes, with no probe
still in flight, the circuit is not HALF_OPEN yet half_open_inflight is 1,
not its pre-call value 0: the probe slot leaks. -/
theorem C2_cex :
    (wrapper ⟨State.halfOpen, [], 0, some 1⟩ defaultCfg 2 2 (Except.error ())
        false none).2.1.state ≠ State.halfOpen ∧
    (wrapper ⟨State.halfOpen, [], 0, some 1⟩ defaultCfg 2 2 (Except.error ())
        false none).2.1.half_open_inflight = 1 := by decide

/-- C2 amended: for a probe admitted in HALF_OPEN, a success resets the
inflight counter to 0 (via the HALF_OPEN to CLOSED transition); a failure
or a guard timeout flips the circuit to OPEN and, because the finally
decrement runs only while the state is still HALF_OPEN, leaves the counter
at its incremented value; the stale counter is reset to 0 only at the next
OPEN to HALF_OPEN transition of the admission check. -/
theorem C2_amended_probe_slots (c : Circuit) (cfg : Config) (tAdm tDone : Int)
    (h1 : c.state = State.halfOpen)
    (h2 : c.half_open_inflight < cfg.half_open_max_calls) :
    (∀ v fb,
       (wrapper c cfg tAdm tDone (Except.ok v) false fb).2.1.half_open_inflight
           = 0 ∧
       (wrapper c cfg tAdm tDone (Except.ok v) false fb).2.1.state
           = State.closed) ∧
    (∀ u fb,
       (wrapper c cfg tAdm tDone (Except.error u) false fb).2.1.state
           = State.opened ∧
       (wrapper c cfg tAdm tDone (Except.error u) false fb).2.1.half_open_inflight
           = c.half_open_inflight + 1) ∧
    (truthyTime cfg.response_timeout = true →
       ∀ fr fb,
         (wrapper c cfg tAdm tDone fr true fb).2.1.state = State.opened ∧
         (wrapper c cfg tAdm tDone fr true fb).2.1.half_open_inflight
           = c.half_open_inflight + 1) ∧
    (∀ c2 t2, c2.state = State.opened → c2.opened_at = some tDone →
       0 < tDone → cfg.recovery_timeout ≤ t2 - tDone →
       (check_state c2 t2 cfg).1.half_open_inflight = 0) := by
  have hA := admission_halfOpen_admits c tAdm cfg h1 h2
  have hst : ({ c with half_open_inflight := c.half_open_inflight + 1 }
      : Circuit).state = State.halfOpen := h1
  refine ⟨?_, ?_, ?_, ?_⟩
  · intro v fb
    simp [wrapper, hA, runBody, record_success_halfOpen _ tDone hst, finallyDec]
  · intro u fb
    have hrf := record_failure_halfOpen
      { c with half_open_inflight := c.half_open_inflight + 1 } tDone cfg hst
    rcases fb with _ | w <;>
      simp [wrapper, hA, runBody, finallyDec, hrf.1, hrf.2.1]
  · intro htr fr fb
    have hrf := record_failure_halfOpen
      { c with half_open_inflight := c.half_open_inflight + 1 } tDone cfg hst
    rcases fb with _ | w <;>
      simp [wrapper, hA, runBody, htr, finallyDec, hrf.1, hrf.2.1]
  · intro c2 t2 hs ho hpos hrec
    have htr : truthyTime (some tDone) = true := by
      simp [truthyTime]
      omega
    simp [check_state, hs, ho, htr, hrec]

/-- C2 amended witness: at concrete inputs, a successful probe leaves the
counter at 0 while a failing probe leaves it at 1. -/
theorem C2_amended_witness :
    (wrapper ⟨State.halfOpen, [], 0, some 1⟩ defaultCfg 2 2 (Except.ok 5)
        false none).2.1.half_open_inflight = 0 ∧
    (wrapper ⟨State.halfOpen, [], 0, some 1⟩ defaultCfg 2 2 (Except.error ())
        false none).2.1.half_open_inflight = 0 + 1 := by
  constructor
  · exact ((C2_amended_probe_slots ⟨State.halfOpen, [], 0, some 1⟩ defaultCfg
      2 2 rfl (by decide)).1 5 none).1
  · exact ((C2_amended_probe_slots ⟨State.halfOpen, [], 0, some 1⟩ defaultCfg
      2 2 rfl (by decide)).2.1 () none).2

/-- C6: on an OPEN circuit, a call strictly inside the recovery window is
rejected with CircuitOpenError without invoking the wrapped function and
leaves the record (hence the OPEN state) untouched; a call at or after
opened_at plus recovery_timeout transitions the record to HALF_OPEN with
half_open_inflight reset to 0 before the admission check completes.
Timestamps from the system clock are positive, which keeps opened_at
truthy in the sense of the source. -/
theorem C6_open_gate (c : Circuit) (cfg : Config) (t ts : Int)
    (h1 : c.state = State.opened) (h2 : c.opened_at = some ts)
    (h3 : 0 < ts) :
    (t - ts < cfg.recovery_timeout →
       ∀ tDone fr tOut fb,
         wrapper c cfg t tDone fr tOut fb
           = (CallResult.error CBError.circuitOpen, c, false)) ∧
    (cfg.recovery_timeout ≤ t - ts →
       (check_state c t cfg).1.state = State.halfOpen ∧
       (check_state c t cfg).1.half_open_inflight = 0) := by
  constructor
  · intro hlt tDone fr tOut fb
    exact wrapper_rejects_open c cfg t ts h1 h2 (by omega) hlt tDone fr tOut fb
  · intro hge
    have htr : truthyTime (some ts) = true := by
      simp [truthyTime]
      omega
    have hh : c.state ≠ State.halfOpen := by simp [h1]
    simp [check_state, h1, h2, htr, hge, set_state_to_halfOpen c t hh]

/-- C6 witness: an OPEN circuit opened at 5 with recovery timeout 30 is
rejected unchanged at 6 and becomes HALF_OPEN with inflight 0 at 40. -/
theorem C6_witness :
    wrapper ⟨State.opened, [9], 4, some 5⟩ defaultCfg 6 6 (Except.ok 0) false
        none
      = (CallResult.error CBError.circuitOpen, ⟨State.opened, [9], 4, some 5⟩,
         false) ∧
    (check_state ⟨State.opened, [9], 4, some 5⟩ 40 defaultCfg).1.state
      = State.halfOpen ∧
    (check_state ⟨State.opened, [9], 4, some 5⟩ 40 defaultCfg).1.half_open_inflight
      = 0 := by
  refine ⟨?_, ?_⟩
  · exact (C6_open_gate ⟨State.opened, [9], 4, some 5⟩ defaultCfg 6 5 rfl rfl
      (by decide)).1 (by decide) 6 (Except.ok 0) false none
  · exact (C6_open_gate ⟨State.opened, [9], 4, some 5⟩ defaultCfg 40 5 rfl rfl
      (by decide)).2 (by decide)

/-- C7: a HALF_OPEN circuit whose inflight counter has reached
half_open_max_calls rejects the call with CircuitOpenError, leaves the
record untouched (no increment) and does not invoke the wrapped function;
and the admission step preserves the bound half_open_inflight at most
half_open_max_calls. -/
theorem C7_probe_budget (c : Circuit) (cfg : Config) (t : Int) :
    (c.state = State.halfOpen →
       cfg.half_open_max_calls ≤ c.half_open_inflight →
       ∀ tDone fr tOut fb,
         wrapper c cfg t tDone fr tOut fb
           = (CallResult.error CBError.circuitOpen, c, false)) ∧
    (c.half_open_inflight ≤ cfg.half_open_max_calls →
       (admission c t cfg).1.half_open_inflight
         ≤ cfg.half_open_max_calls) := by
  constructor
  · intro h1 h2 tDone fr tOut fb
    have hx : ¬(c.state = State.opened ∧ truthyTime c.opened_at = true) := by
      rw [h1]; simp
    have hcs : check_state c t cfg = (c, some CBError.circuitOpen) := by
      simp [check_state, halfOpenBudget, hx, h1, h2]
    simp [wrapper, admission, hcs]
  · intro hle
    by_cases hs : c.state = State.opened ∧ truthyTime c.opened_at = true
    · by_cases hr : cfg.recovery_timeout ≤ t - c.opened_at.getD 0
      · by_cases hb : cfg.half_open_max_calls = 0
        · simp [admission, check_state, halfOpenBudget, hs, hr,
            set_state_to_halfOpen c t (by simp [hs.1]), hb]
        · simp [admission, check_state, halfOpenBudget, hs, hr,
            set_state_to_halfOpen c t (by simp [hs.1]), hb]
          omega
      · simp [admission, check_state, hs, hr, hle]
    · by_cases hb : c.state = State.halfOpen
        ∧ cfg.half_open_max_calls ≤ c.half_open_inflight
      · simp [admission, check_state, halfOpenBudget, hs, hb, hle]
      · by_cases hh : c.state = State.halfOpen
        · have : c.half_open_inflight < cfg.half_open_max_calls := by
            rcases Nat.lt_or_ge c.half_open_inflight cfg.half_open_max_calls
              with h | h
            · exact h
            · exact absurd ⟨hh, h⟩ hb
          simp [admission, check_state, halfOpenBudget, hs, hh,
            Nat.not_le.mpr this]
          omega
        · simp [admission, check_state, halfOpenBudget, hs, hb, hh, hle]

/-- C7 witness: a HALF_OPEN circuit at its probe cap of 1 rejects the call
unchanged, and the admission bound holds at the same input. -/
theorem C7_witness :
    wrapper ⟨State.halfOpen, [2], 1, some 1⟩ defaultCfg 3 3 (Except.ok 0)
        false none
      = (CallResult.error CBError.circuitOpen, ⟨State.halfOpen, [2], 1, some 1⟩,
         false) ∧
    (admission ⟨State.halfOpen, [2], 1, some 1⟩ 3 defaultCfg).1.half_open_inflight
      ≤ defaultCfg.half_open_max_calls := by
  refine ⟨?_, ?_⟩
  · exact (C7_probe_budget ⟨State.halfOpen, [2], 1, some 1⟩ defaultCfg 3).1
      rfl (by decide) 3 (Except.ok 0) false none
  · exact (C7_probe_budget ⟨State.halfOpen, [2], 1, some 1⟩ defaultCfg 3).2
      (by decide)

/-- C9: a HALF_OPEN circuit with spare probe budget that is admitted and
whose call succeeds ends CLOSED with an empty failure window and the
inflight counter at 0, the value of the call being returned. -/
theorem C9_halfOpen_success_closes (c : Circuit) (cfg : Config)
    (tAdm tDone : Int) (v : Int) (fb : Option Int)
    (h1 : c.state = State.halfOpen)
    (h2 : c.half_open_inflight < cfg.half_open_max_calls) :
    wrapper c cfg tAdm tDone (Except.ok v) false fb
      = (CallResult.value v, ⟨State.closed, [], 0, c.opened_at⟩, true) := by
  have hA := admission_halfOpen_admits c tAdm cfg h1 h2
  have hst : ({ c with half_open_inflight := c.half_open_inflight + 1 }
      : Circuit).state = State.halfOpen := h1
  simp [wrapper, hA, runBody, record_success_halfOpen _ tDone hst, finallyDec]

/-- C9 witness: a concrete HALF_OPEN circuit with one window entry closes
and clears on a successful probe. -/
theorem C9_witness :
    wrapper ⟨State.halfOpen, [7], 0, some 1⟩ defaultCfg 2 3 (Except.ok 9)
        false none
      = (CallResult.value 9, ⟨State.closed, [], 0, some 1⟩, true) :=
  C9_halfOpen_success_closes ⟨State.halfOpen, [7], 0, some 1⟩ defaultCfg 2 3 9
    none rfl (by decide)

/-- Pruning a time-sorted list leaves only entries at least now minus the
window: the loop stops at the first young entry, and sortedness makes
every later entry at least as young. -/
theorem pruneList_lb (now w : Int) :
    ∀ l : List Int, List.Pairwise (· ≤ ·) l →
      ∀ x ∈ pruneList now w l, now - w ≤ x := by
  intro l
  induction l with
  | nil => intro _ x hx; simp [pruneList] at hx
  | cons t ts ih =>
    intro hp x hx
    by_cases ht : t < now - w
    · rw [pruneList, if_pos ht] at hx
      exact ih (List.Pairwise.of_cons hp) x hx
    · rw [pruneList, if_neg ht] at hx
      rcases List.mem_cons.mp hx with h | h
      · omega
      · have := (List.pairwise_cons.mp hp).1 x h
        omega

/-- Pruning is the identity when even the oldest entry is inside the
window. -/
theorem pruneList_noop (now w : Int) (l : List Int)
    (h : ∀ x ∈ l, now - w ≤ x) : pruneList now w l = l := by
  cases l with
  | nil => rfl
  | cons t ts =>
    rw [pruneList, if_neg (not_lt.mpr (h t (List.mem_cons_self t ts)))]

/-- C4 counterexample: with threshold 3 and window 10, failures at 0, 1
and 11 leave two entries in the window, not one: the prune drops only
entries strictly older than now minus window, so the boundary entry at 1
survives alongside 11.  The circuit stays CLOSED as the claim says. -/
theorem C4_cex :
    (recordFailures emptyCircuit cfg3 [0, 1, 11]).fail_times = [1, 11] ∧
    (recordFailures emptyCircuit cfg3 [0, 1, 11]).fail_times.length ≠ 1 ∧
    (recordFailures emptyCircuit cfg3 [0, 1, 11]).state = State.closed := by
  decide

/-- C4 amended: after a failure is recorded on a time-sorted window, every
remaining failure timestamp is at least now minus window_seconds (strictly
older entries are excluded from the threshold count); with threshold 3 and
window 10, failures at 0 and 1 followed by one at 11 leave two failures in
the window (the boundary entry at 1 is kept) and do not open the circuit,
whereas a third failure at 2 leaves 3 in the window and opens it. -/
theorem C4_amended_window_pruning :
    (∀ c cfg now, List.Pairwise (· ≤ ·) c.fail_times →
       (∀ x ∈ c.fail_times, x ≤ now) →
       ∀ x ∈ (record_failure c now cfg).fail_times,
         now - cfg.window_seconds ≤ x) ∧
    (recordFailures emptyCircuit cfg3 [0, 1, 11]).fail_times = [1, 11] ∧
    (recordFailures emptyCircuit cfg3 [0, 1, 11]).state = State.closed ∧
    (recordFailures emptyCircuit cfg3 [0, 1, 2]).fail_times = [0, 1, 2] ∧
    (recordFailures emptyCircuit cfg3 [0, 1, 2]).state = State.opened := by
  refine ⟨?_, by decide, by decide, by decide, by decide⟩
  intro c cfg now hp hle x hx
  rw [record_failure_fail_times] at hx
  refine pruneList_lb now cfg.window_seconds (c.fail_times ++ [now]) ?_ x hx
  refine List.pairwise_append.mpr ⟨hp, List.pairwise_singleton _ _, ?_⟩
  intro a ha b hb
  rw [List.mem_singleton.mp hb]
  exact hle a ha

/-- C4 amended witness: the general pruning bound applied to a concrete
sorted window. -/
theorem C4_amended_witness :
    (6 : Int) - cfg3.window_seconds ≤ 5 ∧
    (recordFailures emptyCircuit cfg3 [0, 1, 11]).state = State.closed :=
  ⟨C4_amended_window_pruning.1 ⟨State.closed, [5], 0, none⟩ cfg3 6
      (by simp) (by simp) 5 (by decide),
   C4_amended_window_pruning.2.2.1⟩

/-- Recording one failure below the threshold on a CLOSED circuit, when
nothing falls out of the window, only appends to the window. -/
theorem record_failure_closed_step (c : Circuit) (cfg : Config) (t : Int)
    (h0 : c.state = State.closed)
    (hw : ∀ x ∈ c.fail_times ++ [t], t - cfg.window_seconds ≤ x)
    (hlen : c.fail_times.length + 1 < cfg.failure_threshold) :
    record_failure c t cfg = { c with fail_times := c.fail_times ++ [t] } := by
  have hpr := pruneList_noop t cfg.window_seconds (c.fail_times ++ [t]) hw
  have hnotle : ¬(cfg.failure_threshold ≤ c.fail_times.length + 1) := by omega
  simp [record_failure, prune_failures, hpr, h0, hnotle]

/-- Recording the failure that reaches the threshold on a CLOSED circuit,
when nothing falls out of the window, opens it with opened_at stamped at
this failure instant. -/
theorem record_failure_opens_step (c : Circuit) (cfg : Config) (t : Int)
    (h0 : c.state = State.closed)
    (hw : ∀ x ∈ c.fail_times ++ [t], t - cfg.window_seconds ≤ x)
    (hlen : cfg.failure_threshold ≤ c.fail_times.length + 1) :
    record_failure c t cfg
      = { c with
          state := State.opened
          fail_times := c.fail_times ++ [t]
          opened_at := some t } := by
  have hpr := pruneList_noop t cfg.window_seconds (c.fail_times ++ [t]) hw
  have hso := set_state_closed_to_opened
    { c with fail_times := c.fail_times ++ [t] } t (by simp [h0])
  simp [record_failure, prune_failures, hpr, hlen, hso]

/-- While the in-window count stays below the threshold and all recorded
instants lie within one window of each other, a CLOSED circuit only
accumulates window entries. -/
theorem recordFailures_stays_closed (cfg : Config) :
    ∀ (rest : List Int) (c : Circuit),
      c.state = State.closed →
      (∀ x ∈ c.fail_times ++ rest, ∀ y ∈ c.fail_times ++ rest,
         y - x ≤ cfg.window_seconds) →
      c.fail_times.length + rest.length < cfg.failure_threshold →
      recordFailures c cfg rest
        = { c with fail_times := c.fail_times ++ rest } := by
  intro rest
  induction rest with
  | nil =>
    intro c h0 hw hlen
    simp [recordFailures]
  | cons t rest ih =>
    intro c h0 hw hlen
    have htmem : t ∈ c.fail_times ++ t :: rest :=
      List.mem_append_right _ (List.mem_cons_self t rest)
    have hstep : record_failure c t cfg
        = { c with fail_times := c.fail_times ++ [t] } := by
      apply record_failure_closed_step c cfg t h0
      · intro x hx
        rcases List.mem_append.mp hx with h | h
        · have := hw x (List.mem_append_left _ h) t htmem
          omega
        · rw [List.mem_singleton.mp h]
          have := hw t htmem t htmem
          omega
      · simp only [List.length_cons] at hlen
        omega
    have hrw : recordFailures c cfg (t :: rest)
        = recordFailures (record_failure c t cfg) cfg rest := rfl
    have happ : (c.fail_times ++ [t]) ++ rest = c.fail_times ++ (t :: rest) := by
      simp
    have hw2 : ∀ x ∈ (c.fail_times ++ [t]) ++ rest,
        ∀ y ∈ (c.fail_times ++ [t]) ++ rest, y - x ≤ cfg.window_seconds := by
      rw [happ]; exact hw
    have hlen2 : (c.fail_times ++ [t]).length + rest.length
        < cfg.failure_threshold := by
      simp only [List.length_append, List.length_singleton, List.length_cons,
        List.length_nil] at hlen ⊢
      omega
    have h2 := ih { c with fail_times := c.fail_times ++ [t] } h0 hw2 hlen2
    rw [hrw, hstep, h2, happ]

/-- C3: a key starting CLOSED with an empty window, hit by exactly
failure_threshold failures all within window_seconds of one another, ends
OPEN with opened_at stamped at the last failure instant and the window
holding exactly those instants; any next call inside the recovery window
is then rejected with CircuitOpenError, the wrapped function not invoked
and the record untouched, fallback or not.  Clock instants are positive. -/
theorem C3_threshold_opens (c : Circuit) (cfg : Config) (ts : List Int)
    (h0 : c.state = State.closed) (h1 : c.fail_times = [])
    (hne : ts ≠ []) (hlen : ts.length = cfg.failure_threshold)
    (hwin : ∀ x ∈ ts, ∀ y ∈ ts, y - x ≤ cfg.window_seconds)
    (hpos : 0 < ts.getLast hne) :
    (recordFailures c cfg ts).state = State.opened ∧
    (recordFailures c cfg ts).opened_at = some (ts.getLast hne) ∧
    (recordFailures c cfg ts).fail_times = ts ∧
    (∀ t2, t2 - ts.getLast hne < cfg.recovery_timeout →
       ∀ tDone fr tOut fb,
         wrapper (recordFailures c cfg ts) cfg t2 tDone fr tOut fb
           = (CallResult.error CBError.circuitOpen, recordFailures c cfg ts,
              false)) := by
  have hsplit : ts.dropLast ++ [ts.getLast hne] = ts :=
    List.dropLast_append_getLast hne
  have hts1 : 1 ≤ ts.length := List.length_pos.mpr hne
  have hLlen : ts.dropLast.length = ts.length - 1 := List.length_dropLast ts
  have hsub : ts.dropLast ⊆ ts := by
    intro x hx
    rw [← hsplit]
    exact List.mem_append_left _ hx
  have hlast : ts.getLast hne ∈ ts := List.getLast_mem hne
  have h2 : recordFailures c cfg ts.dropLast
      = { c with fail_times := ts.dropLast } := by
    have := recordFailures_stays_closed cfg ts.dropLast c h0 ?_ ?_
    · rw [this, h1]
      simp
    · rw [h1]
      simp only [List.nil_append]
      intro x hx y hy
      exact hwin x (hsub hx) y (hsub hy)
    · rw [h1]
      simp only [List.length_nil]
      omega
  have hw3 : ∀ x ∈ (ts.dropLast ++ [ts.getLast hne]),
      ts.getLast hne - cfg.window_seconds ≤ x := by
    rw [hsplit]
    intro x hx
    have := hwin x hx (ts.getLast hne) hlast
    omega
  have h3 := record_failure_opens_step { c with fail_times := ts.dropLast }
    cfg (ts.getLast hne) h0 hw3 (by simp only [List.length_dropLast]; omega)
  have hfold : recordFailures c cfg ts
      = record_failure (recordFailures c cfg ts.dropLast) (ts.getLast hne)
          cfg := by
    conv_lhs => rw [← hsplit]
    unfold recordFailures
    rw [List.foldl_append]
    rfl
  have hFin : recordFailures c cfg ts
      = { c with
          state := State.opened
          fail_times := ts
          opened_at := some (ts.getLast hne) } := by
    rw [hfold, h2, h3]
    have : ts.dropLast ++ [ts.getLast hne] = ts := hsplit
    simp [this]
  refine ⟨by rw [hFin], by rw [hFin], by rw [hFin], ?_⟩
  intro t2 hlt tDone fr tOut fb
  exact wrapper_rejects_open _ cfg t2 (ts.getLast hne) (by rw [hFin])
    (by rw [hFin]) (by omega) hlt tDone fr tOut fb

/-- C3 witness: threshold 3 reached by failures at 1, 2, 3 (window 10)
opens the circuit at 3 and the next call at 4 is rejected unchanged. -/
theorem C3_witness :
    (recordFailures emptyCircuit cfg3 [1, 2, 3]).state = State.opened ∧
    (recordFailures emptyCircuit cfg3 [1, 2, 3]).opened_at
      = some ([1, 2, 3].getLast (by decide)) ∧
    wrapper (recordFailures emptyCircuit cfg3 [1, 2, 3]) cfg3 4 4
        (Except.ok 0) false none
      = (CallResult.error CBError.circuitOpen,
         recordFailures emptyCircuit cfg3 [1, 2, 3], false) := by
  have h := C3_threshold_opens emptyCircuit cfg3 [1, 2, 3] rfl rfl
    (by decide) (by decide) (by decide) (by decide)
  exact ⟨h.1, h.2.1, h.2.2.2 4 (by decide) 4 (Except.ok 0) false none⟩

/-- A fresh dict assignment is found by a lookup of the same key. -/
theorem lookupTs_setTs (m : List (String × Int)) (k : String) (v : Int) :
    lookupTs (setTs m k v) k = some v := by
  induction m with
  | nil => simp [setTs, lookupTs]
  | cons kv rest ih =>
    obtain ⟨a, w⟩ := kv
    by_cases h : a = k
    · simp [setTs, lookupTs, h]
    · simp [setTs, lookupTs, h, ih]

/-- With a configured nonzero port, no fresh last-down mark, and a failing
probe, the service gate runs its except branch. -/
theorem check_service_port_down (b : Breaker) (project service : String)
    (cfg : Config) (now : Int) (p : Nat)
    (hport : cfg.service_port = some p) (hp : p ≠ 0)
    (hguard : ¬(truthyTime (lookupTs b.last_down
          (servicePrefixOf project service)) = true ∧
        now - (lookupTs b.last_down
            (servicePrefixOf project service)).getD 0
          < cfg.recovery_timeout)) :
    check_service_port b project service cfg now false
      = (markServiceDown b (servicePrefixOf project service) now,
         some CBError.circuitOpen, true) := by
  simp [check_service_port, hport, hp, hguard]

/-- Every circuit of the service is OPEN after markServiceDown. -/
theorem markServiceDown_all_open (b : Breaker) (sp : String) (now : Int) :
    ∀ k c, (k, c) ∈ (markServiceDown b sp now).circuits →
      strStartsWith sp k = true → c.state = State.opened := by
  intro k c hmem hpre
  simp only [markServiceDown] at hmem
  have hmain : (k, c) ∈ b.circuits.map (fun kc =>
      if strStartsWith sp kc.1 then (kc.1, set_state kc.2 State.opened now)
      else kc) → c.state = State.opened := by
    intro hm
    obtain ⟨kc, hkc, hf⟩ := List.mem_map.mp hm
    by_cases h : strStartsWith sp kc.1
    · rw [if_pos h] at hf
      obtain ⟨h1, h2⟩ := Prod.mk.injEq .. ▸ hf
      rw [← h2]
      exact (set_state_opened_fields _ _).1
    · rw [if_neg h] at hf
      rw [hf] at h
      exact absurd hpre (by simpa using h)
  split at hmem
  · exact hmain hmem
  · rcases List.mem_append.mp hmem with hm | hm
    · exact hmain hm
    · have := List.mem_singleton.mp hm
      obtain ⟨h1, h2⟩ := Prod.mk.injEq .. ▸ this
      rw [h2]
      exact (set_state_opened_fields _ _).1

/-- markServiceDown keeps every existing key with its failure window
untouched: being set OPEN never appends to (or clears) fail_times. -/
theorem markServiceDown_keeps_windows (b : Breaker) (sp : String)
    (now : Int) :
    ∀ kc ∈ b.circuits, ∃ c2,
      (kc.1, c2) ∈ (markServiceDown b sp now).circuits ∧
      c2.fail_times = kc.2.fail_times := by
  intro kc hkc
  by_cases h : strStartsWith sp kc.1
  · refine ⟨set_state kc.2 State.opened now, ?_,
      (set_state_opened_fields _ _).2.1⟩
    have hmm : (kc.1, set_state kc.2 State.opened now) ∈ b.circuits.map
        (fun kc => if strStartsWith sp kc.1
          then (kc.1, set_state kc.2 State.opened now) else kc) :=
      List.mem_map.mpr ⟨kc, hkc, by simp [h]⟩
    simp only [markServiceDown]
    split
    · exact hmm
    · exact List.mem_append_left _ hmm
  · refine ⟨kc.2, ?_, rfl⟩
    have hmm : (kc.1, kc.2) ∈ b.circuits.map
        (fun kc => if strStartsWith sp kc.1
          then (kc.1, set_state kc.2 State.opened now) else kc) :=
      List.mem_map.mpr ⟨kc, hkc, by simp [h]⟩
    simp only [markServiceDown]
    split
    · exact hmm
    · exact List.mem_append_left _ hmm

/-- When the service had no circuit at all, markServiceDown synthesises
the opened dummy with an empty window. -/
theorem markServiceDown_dummy (b : Breaker) (sp : String) (now : Int)
    (hnone : ∀ kc ∈ b.circuits, strStartsWith sp kc.1 = false) :
    ∃ cd, (sp ++ "_dummy_api", cd) ∈ (markServiceDown b sp now).circuits ∧
      cd.state = State.opened ∧ cd.fail_times = [] := by
  have hany : (b.circuits.map (fun kc =>
      if strStartsWith sp kc.1 then (kc.1, set_state kc.2 State.opened now)
      else kc)).any (fun kc => strStartsWith sp kc.1) = false := by
    rw [List.any_map]
    rw [List.any_eq_false]
    intro kc hkc
    have h := hnone kc hkc
    simp [Function.comp, h]
  refine ⟨set_state emptyCircuit State.opened now, ?_,
    (set_state_opened_fields _ _).1, (set_state_opened_fields _ _).2.1⟩
  simp only [markServiceDown, hany]
  simp

/-- C8: with a reachability target configured and no fresh down-marker, a
failed probe at instant now makes the gate (i) reject the current call
with CircuitOpenError after an attempted probe, (ii) leave every circuit
of the service OPEN, (iii) keep every existing key with its failure window
unchanged (nothing is appended to any fine-grained window), (iv)
synthesise an opened placeholder circuit when the service had none, (v)
record the down instant; and every subsequent call with now2 minus now
below recovery_timeout is rejected immediately with no connection probe
attempted and the breaker state unchanged.  Clock instants are positive. -/
theorem C8_service_gate_cascade (b : Breaker) (project service : String)
    (cfg : Config) (now : Int) (p : Nat)
    (hport : cfg.service_port = some p) (hp : p ≠ 0) (hnow : 0 < now)
    (hguard : ¬(truthyTime (lookupTs b.last_down
          (servicePrefixOf project service)) = true ∧
        now - (lookupTs b.last_down
            (servicePrefixOf project service)).getD 0
          < cfg.recovery_timeout)) :
    (check_service_port b project service cfg now false).2.1
        = some CBError.circuitOpen ∧
    (check_service_port b project service cfg now false).2.2 = true ∧
    (∀ k c, (k, c) ∈ (check_service_port b project service cfg now
          false).1.circuits →
       strStartsWith (servicePrefixOf project service) k = true →
       c.state = State.opened) ∧
    (∀ kc ∈ b.circuits, ∃ c2,
       (kc.1, c2) ∈ (check_service_port b project service cfg now
           false).1.circuits ∧
       c2.fail_times = kc.2.fail_times) ∧
    ((∀ kc ∈ b.circuits,
        strStartsWith (servicePrefixOf project service) kc.1 = false) →
      ∃ cd, (servicePrefixOf project service ++ "_dummy_api", cd)
          ∈ (check_service_port b project service cfg now false).1.circuits ∧
        cd.state = State.opened ∧ cd.fail_times = []) ∧
    lookupTs (check_service_port b project service cfg now
        false).1.last_down (servicePrefixOf project service) = some now ∧
    (∀ now2 up2, now2 - now < cfg.recovery_timeout →
       check_service_port (check_service_port b project service cfg now
           false).1 project service cfg now2 up2
         = ((check_service_port b project service cfg now false).1,
            some CBError.circuitOpen, false)) := by
  have hred := check_service_port_down b project service cfg now p hport hp
    hguard
  rw [hred]
  have hlk : lookupTs (markServiceDown b (servicePrefixOf project service)
        now).last_down (servicePrefixOf project service) = some now :=
    lookupTs_setTs b.last_down (servicePrefixOf project service) now
  refine ⟨rfl, rfl,
    markServiceDown_all_open b (servicePrefixOf project service) now,
    markServiceDown_keeps_windows b (servicePrefixOf project service) now,
    markServiceDown_dummy b (servicePrefixOf project service) now,
    hlk, ?_⟩
  intro now2 up2 hlt
  have htr : truthyTime (some now) = true := by
    simp [truthyTime]
    omega
  simp [check_service_port, hport, hp, hlk, htr, hlt]

/-- C8 witness: a concrete breaker with one circuit of the service and one
foreign circuit, probe failing at instant 7, then a repeat call at 20. -/
theorem C8_witness :
    (check_service_port
        ⟨[("pr:sv:a", ⟨State.closed, [3], 0, none⟩), ("x:y:z", emptyCircuit)],
         []⟩ "pr" "sv" { cfg3 with service_port := some 80 } 7 false).2.1
      = some CBError.circuitOpen ∧
    (⟨State.opened, [3], 0, some 7⟩ : Circuit).state = State.opened ∧
    check_service_port
        (check_service_port
          ⟨[("pr:sv:a", ⟨State.closed, [3], 0, none⟩), ("x:y:z", emptyCircuit)],
           []⟩ "pr" "sv" { cfg3 with service_port := some 80 } 7 false).1
        "pr" "sv" { cfg3 with service_port := some 80 } 20 true
      = ((check_service_port
          ⟨[("pr:sv:a", ⟨State.closed, [3], 0, none⟩), ("x:y:z", emptyCircuit)],
           []⟩ "pr" "sv" { cfg3 with service_port := some 80 } 7 false).1,
         some CBError.circuitOpen, false) := by
  have h := C8_service_gate_cascade
    ⟨[("pr:sv:a", ⟨State.closed, [3], 0, none⟩), ("x:y:z", emptyCircuit)], []⟩
    "pr" "sv" { cfg3 with service_port := some 80 } 7 80 rfl (by decide)
    (by decide) (by decide)
  refine ⟨h.1, ?_, h.2.2.2.2.2.2 20 true (by decide)⟩
  exact h.2.2.1 "pr:sv:a" ⟨State.opened, [3], 0, some 7⟩ (by decide) (by decide)

end CircuitBreakerLib
